import Mathlib

/-! Verification of the address-allocation and validation engine of the
`tag_importer` repository (`src/tag_importer/twinsoft/twinsoftprocessor.py`),
shallowly embedded in Lean.  Dataframe rows become structures, pandas
joins/filters become list operations, and raised `TwinsoftError`s become
`Except` errors.  Regex matching/substitution performed by the external
`re` library is passed in as explicit function arguments. -/

namespace TagImporter

/-- A row of the MEMORY_MAP sheet (`xl_processor.memory_map_df`); the loader
(`ExcelProcessor.memory_map_df`, `empty_cells_allowed=False`) guarantees no
cell is null, so every field is total. -/
structure MemRegion where
  mem_id : String
  mem_type : String
  start_address : Int
  length : Int
  ts_format : String
  ts_signed : Bool
deriving DecidableEq

/-- A row of `get_twinsoft_export_summary()` after the `dropna` in
`__generate_addressing`: per (Group, Format, Signed) the min/max
ModbusAddress of the Twinsoft export, joined with its MAP entry
(`TS_GROUP`, `MEM_ID`). -/
structure SummaryRow where
  group : String
  format : String
  signed : Bool
  mb_min : Int
  mb_max : Int
  ts_group : String
  mem_id : String
deriving DecidableEq

/-- A row of `pending_tags_df` as passed to `__generate_addressing` by
`generate_tags` / `create`: the tag to materialize together with the
memory-map columns brought in by the merge on (MEM_ID, TYPE = MEM_TYPE). -/
structure PendingTag where
  tag : String
  description : String
  initial_value : Int
  ts_group : String
  mem_id : String
  ts_format : String
  ts_signed : Bool
  mem_type : String
  start_address : Int
  length : Int
  text_len : Int
deriving DecidableEq

/-- A fully-addressed allocation row as seen by `__validate_gen_df`
(columns TAG, DESCRIPTION, TS_GROUP, MEM_ID, TS_FORMAT, TS_SIGNED,
MEM_TYPE, CALC_ADDRESS, INITIAL_VALUE).  `mem_type` is an `Option`
because on the clone path the left merge with the memory map can leave
it NaN. -/
structure ValRow where
  tag : String
  description : String
  ts_group : String
  mem_id : String
  ts_format : String
  ts_signed : Bool
  mem_type : Option String
  calc_address : Int
  initial_value : Int
deriving DecidableEq

/-- A row of `self.__twinsoft_tags_df`: a tag of the Twinsoft XML export
merged with its MAP entry (columns Tag, Group, Format, Signed (the raw
string), ModbusAddress, Comment, InitalValue, TS_GROUP, MEM_ID). -/
structure ExportedTag where
  tag : String
  group : String
  format : String
  signed : String
  modbusAddress : Int
  comment : String
  initalValue : Option Int
  ts_group : String
  mem_id : String
deriving DecidableEq

/-- Error taxonomy mirroring the `TwinsoftError.TE_*` codes raised by
`TwinsoftProcessor`, each carrying the diagnostic payload the source
embeds in the raised message. -/
inductive TwErr where
  /-- TE_DOUBLE_UNDERSCORES (-116), payload `list(t['TAG'])`. -/
  | doubleUnderscores (tags : List String)
  /-- TE_TAG_NAME_TOO_LONG (-109), payload `list(t['TAG'])`. -/
  | tagNameTooLong (tags : List String)
  /-- TE_TAG_DESC_TOO_LONG (-110), payload `list(t['TAG'])`. -/
  | tagDescTooLong (tags : List String)
  /-- TE_MAP_GROUP_TOO_LONG (-120), payload `t['TS_GROUP'].unique()`. -/
  | mapGroupTooLong (groups : List String)
  /-- TE_MEM_ID_NOT_FOUND (-106), payload `df['MEM_ID'].unique()`. -/
  | memIdNotFound (memIds : List String)
  /-- TE_CALC_ADDRESS_NOT_IN_MEMORY_MAP (-117), payload the offending
  merged rows. -/
  | calcAddressOutOfMap (rows : List (ValRow × Option MemRegion))
  /-- TE_DUPLICATE_BOOL_ADDR (-111), payload the duplicated rows. -/
  | duplicateBoolAddr (rows : List ValRow)
  /-- TE_DUPLICATE_ANALOG_ADDR (-112), payload the duplicated rows. -/
  | duplicateAnalogAddr (rows : List ValRow)
  /-- TE_MEMORY_MAP_CONFLICT (-114), payload the conflicting region pairs
  (origin row, conflicting later row). -/
  | memoryMapConflict (pairs : List (MemRegion × MemRegion))
  /-- TE_PATTERN_NOT_FOUND (-100) as raised by `clone` when the tag/group
  filters select nothing. -/
  | patternNotFound
deriving DecidableEq

deriving instance DecidableEq for Except

/-- TwinsoftProcessor.TW_MAX_TAG_LEN. -/
def TW_MAX_TAG_LEN : Nat := 15

/-- TwinsoftProcessor.TW_MAX_GROUP_NAME_LEN. -/
def TW_MAX_GROUP_NAME_LEN : Nat := 15

/-- TwinsoftProcessor.TW_TAG_MAX_DESC_LEN. -/
def TW_TAG_MAX_DESC_LEN : Nat := 50

/-- TwinsoftProcessor.TW_IGNORE_DATA, the sentinel for "no initial value". -/
def TW_IGNORE_DATA : Int := -9999

/-- TwinsoftProcessor.replace_pattern: `re.search` (the external `re`
collaborator) is passed in as a function returning the start position of
the first match, if any; on a match the source does
`source[:pos] + new_content + source[pos+1:]`, on no match it returns
`source` unchanged. -/
def replace_pattern (search : String → String → Option Nat)
    (pattern source new_content : String) : String :=
  match search pattern source with
  | some pos => ⟨source.data.take pos ++ new_content.data ++ source.data.drop (pos + 1)⟩
  | none => source

/-- C9: the pattern-substitution helper used to expand GENERATE templates
replaces exactly one character of the source string: when the search
finds a first match at position `pos`, the result keeps the first `pos`
characters, inserts the whole replacement, and keeps everything after
position `pos` (so a multi-character match keeps its remaining
characters); when the pattern does not match, the source is returned
unchanged. -/
theorem replace_pattern_single_char (search : String → String → Option Nat)
    (pattern source new_content : String) :
    (search pattern source = none →
      replace_pattern search pattern source new_content = source) ∧
    (∀ pos : Nat, search pattern source = some pos → pos < source.data.length →
      (replace_pattern search pattern source new_content).data.length
          = source.data.length - 1 + new_content.data.length ∧
      (∀ i : Nat, i < pos →
        (replace_pattern search pattern source new_content).data[i]?
            = source.data[i]?) ∧
      (∀ j : Nat, j < new_content.data.length →
        (replace_pattern search pattern source new_content).data[pos + j]?
            = new_content.data[j]?) ∧
      (∀ k : Nat, pos + 1 ≤ k → k < source.data.length →
        (replace_pattern search pattern source new_content).data[pos + new_content.data.length + (k - (pos + 1))]?
            = source.data[k]?)) := by
  constructor
  · intro h
    simp [replace_pattern, h]
  · intro pos h hpos
    have hdata : (replace_pattern search pattern source new_content).data
        = source.data.take pos ++ new_content.data ++ source.data.drop (pos + 1) := by
      simp [replace_pattern, h]
    have htake : (source.data.take pos).length = pos := by
      rw [List.length_take]
      omega
    refine ⟨?_, ?_, ?_, ?_⟩
    · rw [hdata]
      simp only [List.length_append, htake, List.length_drop]
      omega
    · intro i hi
      rw [hdata, List.append_assoc, List.getElem?_append_left (by omega),
        List.getElem?_take_of_lt hi]
    · intro j hj
      rw [hdata, List.append_assoc,
        List.getElem?_append_right (by omega)]
      rw [htake]
      have : pos + j - pos = j := by omega
      rw [this, List.getElem?_append_left hj]
    · intro k hk1 hk2
      rw [hdata, List.append_assoc,
        List.getElem?_append_right (by omega)]
      rw [htake]
      have h1 : pos + new_content.data.length + (k - (pos + 1)) - pos
          = new_content.data.length + (k - (pos + 1)) := by omega
      rw [h1, List.getElem?_append_right (by omega)]
      have h2 : new_content.data.length + (k - (pos + 1)) - new_content.data.length
          = k - (pos + 1) := by omega
      rw [h2, List.getElem?_drop]
      congr 1
      omega

/-- Witness for C9: substituting with pattern `\*` (modelled by a search
for the first `*`) in `AB*CD` with replacement `XYZ` yields a string of
length 5 - 1 + 3 and keeps the prefix `AB`. -/
theorem replace_pattern_single_char_witness :
    (replace_pattern (fun _ s => s.data.findIdx? (fun c => c == '*')) "\\*" "AB*CD" "XYZ").data.length
        = "AB*CD".data.length - 1 + "XYZ".data.length ∧
    (replace_pattern (fun _ s => s.data.findIdx? (fun c => c == '*')) "\\*" "AB*CD" "XYZ").data[1]?
        = "AB*CD".data[1]? := by
  have h := replace_pattern_single_char
    (fun _ s => s.data.findIdx? (fun c => c == '*')) "\\*" "AB*CD" "XYZ"
  have h2 := h.2 2 (by decide) (by decide)
  exact ⟨h2.1, h2.2.1 1 (by decide)⟩

/-- END_ADDRESS as computed in `load_and_validate_memory_map`:
`START_ADDRESS + LENGTH * 2 - 2` for FLOAT/INT32/UINT32 regions and
`START_ADDRESS + LENGTH - 1` otherwise. -/
def end_address (r : MemRegion) : Int :=
  if r.mem_type == "FLOAT" || r.mem_type == "INT32" || r.mem_type == "UINT32" then
    r.start_address + r.length * 2 - 2
  else r.start_address + r.length - 1

/-- IS_BOOL column: `MEM_TYPE == 'BOOL'`. -/
def is_bool (r : MemRegion) : Bool := r.mem_type == "BOOL"

/-- Interval-intersection test of `load_and_validate_memory_map`:
`row.START_ADDRESS <= nrow.END_ADDRESS and nrow.START_ADDRESS <= row.END_ADDRESS`. -/
def overlapsB (a b : MemRegion) : Bool :=
  decide (a.start_address ≤ end_address b) && decide (b.start_address ≤ end_address a)

/-- Conflict rows collected for one boolean/non-boolean class: for each
row, every LATER row of the same class whose interval intersects it is
appended as an `(origin, conflict)` pair — the `df.shift(-(i+1))` loop of
`load_and_validate_memory_map`. -/
def pairConflicts (cls : Bool) : List MemRegion → List (MemRegion × MemRegion)
  | [] => []
  | r :: rest =>
      (if is_bool r = cls then
        (rest.filter (fun s => decide (is_bool s = cls) && overlapsB r s)).map
          (fun s => (r, s))
      else []) ++ pairConflicts cls rest

/-- The full `err_df` of `load_and_validate_memory_map`: the groupby on
IS_BOOL iterates the `False` class first, then the `True` class. -/
def memory_map_conflicts (rs : List MemRegion) : List (MemRegion × MemRegion) :=
  pairConflicts false rs ++ pairConflicts true rs

/-- TwinsoftProcessor.load_and_validate_memory_map: collect conflicting
same-class region pairs and, unless `ignore_errors` is set, raise
TE_MEMORY_MAP_CONFLICT when any exist. -/
def load_and_validate_memory_map (rs : List MemRegion) (ignore_errors : Bool) :
    Except TwErr Unit :=
  if ignore_errors then .ok ()
  else if !(memory_map_conflicts rs).isEmpty then
    .error (.memoryMapConflict (memory_map_conflicts rs))
  else .ok ()

theorem pairConflicts_sound (cls : Bool) :
    ∀ (rs : List MemRegion) (a b : MemRegion), (a, b) ∈ pairConflicts cls rs →
      is_bool a = cls ∧ is_bool b = cls ∧ overlapsB a b = true := by
  intro rs
  induction rs with
  | nil => intro a b h; simp [pairConflicts] at h
  | cons r rest ih =>
    intro a b h
    simp only [pairConflicts] at h
    rcases List.mem_append.mp h with h1 | h2
    · by_cases hc : is_bool r = cls
      · rw [if_pos hc] at h1
        obtain ⟨s, hsf, heq⟩ := List.mem_map.mp h1
        obtain ⟨hs, hcond⟩ := List.mem_filter.mp hsf
        rw [Bool.and_eq_true, decide_eq_true_eq] at hcond
        cases heq
        exact ⟨hc, hcond.1, hcond.2⟩
      · simp [hc] at h1
    · exact ih a b h2

theorem mem_pairConflicts_of_sublist (cls : Bool) :
    ∀ (rs : List MemRegion) (a b : MemRegion), [a, b].Sublist rs →
      is_bool a = cls → is_bool b = cls → overlapsB a b = true →
      (a, b) ∈ pairConflicts cls rs := by
  intro rs
  induction rs with
  | nil => intro a b h; cases h
  | cons r rest ih =>
    intro a b h ha hb hov
    cases h with
    | cons _ h' =>
      exact List.mem_append_right _ (ih a b h' ha hb hov)
    | cons₂ _ h' =>
      have hbmem : b ∈ rest := List.singleton_sublist.mp h'
      refine List.mem_append_left _ ?_
      rw [if_pos ha]
      exact List.mem_map.mpr ⟨b, List.mem_filter.mpr ⟨hbmem, by
        rw [Bool.and_eq_true, decide_eq_true_eq]; exact ⟨hb, hov⟩⟩, rfl⟩

/-- C6: the region overlap check reports a conflict for every pair of
regions of the same boolean/non-boolean class whose `[start, end]`
intervals intersect (every such pair, not only the first), never reports
a cross-class pair, and is suppressed entirely by the ignore-errors
flag; concretely, two BOOL regions `[0,99]` and `[50,149]` conflict
while a BOOL region `[0,99]` and a UINT16 region `[0,99]` do not. -/
theorem region_overlap_check_correct :
    (∀ rs : List MemRegion, load_and_validate_memory_map rs true = .ok ()) ∧
    (∀ rs : List MemRegion,
      load_and_validate_memory_map rs false = .ok () ↔ memory_map_conflicts rs = []) ∧
    (∀ (rs : List MemRegion) (a b : MemRegion), (a, b) ∈ memory_map_conflicts rs →
      is_bool a = is_bool b ∧ overlapsB a b = true) ∧
    (∀ (rs : List MemRegion) (a b : MemRegion), [a, b].Sublist rs →
      is_bool a = is_bool b → overlapsB a b = true →
      (a, b) ∈ memory_map_conflicts rs) ∧
    memory_map_conflicts
        [⟨"B1", "BOOL", 0, 100, "DIGITAL", false⟩, ⟨"B2", "BOOL", 50, 100, "DIGITAL", false⟩]
      = [(⟨"B1", "BOOL", 0, 100, "DIGITAL", false⟩, ⟨"B2", "BOOL", 50, 100, "DIGITAL", false⟩)] ∧
    memory_map_conflicts
        [⟨"B1", "BOOL", 0, 100, "DIGITAL", false⟩, ⟨"W1", "UINT16", 0, 100, "16BITS", false⟩]
      = [] := by
  refine ⟨?_, ?_, ?_, ?_, by decide, by decide⟩
  · intro rs; simp [load_and_validate_memory_map]
  · intro rs
    unfold load_and_validate_memory_map
    cases h : memory_map_conflicts rs with
    | nil => simp [h]
    | cons p ps => simp [h]
  · intro rs a b h
    rcases List.mem_append.mp h with h1 | h1
    · obtain ⟨ha, hb, hov⟩ := pairConflicts_sound false rs a b h1
      exact ⟨ha.trans hb.symm, hov⟩
    · obtain ⟨ha, hb, hov⟩ := pairConflicts_sound true rs a b h1
      exact ⟨ha.trans hb.symm, hov⟩
  · intro rs a b hsub hcls hov
    cases hb : is_bool b with
    | false =>
      exact List.mem_append_left _
        (mem_pairConflicts_of_sublist false rs a b hsub (hcls.trans hb) hb hov)
    | true =>
      exact List.mem_append_right _
        (mem_pairConflicts_of_sublist true rs a b hsub (hcls.trans hb) hb hov)

/-- Witness for C6 at the two concrete BOOL regions `[0,99]` and
`[50,149]`: the completeness conjunct applied there reports their
conflict. -/
theorem region_overlap_check_correct_witness :
    (⟨"B1", "BOOL", 0, 100, "DIGITAL", false⟩, ⟨"B2", "BOOL", 50, 100, "DIGITAL", false⟩) ∈
      memory_map_conflicts
        [⟨"B1", "BOOL", 0, 100, "DIGITAL", false⟩, ⟨"B2", "BOOL", 50, 100, "DIGITAL", false⟩] :=
  region_overlap_check_correct.2.2.2.1 _ _ _ (List.Sublist.refl _) (by decide) (by decide)

/-- Count-of-earlier-equal-key helper: pairs every list element with the
number of earlier elements sharing its key, mirroring pandas
`groupby(...).cumcount()` (and, with a positivity test, `duplicated()`). -/
def withPrevCountAux {α β : Type} [DecidableEq β] (key : α → β) (prev : List α) :
    List α → List (α × Nat)
  | [] => []
  | r :: rest =>
      (r, (prev.filter (fun p => decide (key p = key r))).length) ::
        withPrevCountAux key (prev ++ [r]) rest

/-- Entry point of `withPrevCountAux` with an empty prefix. -/
def withPrevCount {α β : Type} [DecidableEq β] (key : α → β) (rows : List α) :
    List (α × Nat) :=
  withPrevCountAux key [] rows

/-- Join key of `pd.merge(export_summary, pending_tags_df, left_on=[MEM_ID,
Format, Signed], right_on=[MEM_ID, TS_FORMAT, TS_SIGNED])`. -/
def matchesKey (s : SummaryRow) (t : PendingTag) : Bool :=
  s.mem_id == t.mem_id && s.format == t.ts_format && s.signed == t.ts_signed

/-- The right join of `__generate_addressing`: every pending row is kept,
paired with each matching summary row, or with `none` (NaN left columns)
when no summary row matches its key. -/
def rightJoinSummary (summary : List SummaryRow) (pending : List PendingTag) :
    List (Option SummaryRow × PendingTag) :=
  pending.flatMap (fun t =>
    match summary.filter (fun s => matchesKey s t) with
    | [] => [(none, t)]
    | ms => ms.map (fun s => (some s, t)))

/-- MB_MAX of a merged row (only read on rows whose summary side exists). -/
def mbMaxOf (r : Option SummaryRow × PendingTag) : Int :=
  match r.1 with
  | some s => s.mb_max
  | none => 0

/-- Grouping key (MEM_ID, MEM_TYPE) used by the `transform(max)` and by
the cumcount; MEM_TYPE comes from the pending (right) side. -/
def sameAllocGroup (r₁ r₂ : Option SummaryRow × PendingTag) : Bool :=
  r₁.2.mem_id == r₂.2.mem_id && r₁.2.mem_type == r₂.2.mem_type

/-- The `max_merged` frame: merged rows that carry usage data
(`HAS_DATA == True`). -/
def mdRows (summary : List SummaryRow) (pending : List PendingTag) :
    List (Option SummaryRow × PendingTag) :=
  (rightJoinSummary summary pending).filter (fun r => r.1.isSome)

/-- Rows of `max_merged` whose MB_MAX equals the per-(MEM_ID, MEM_TYPE)
group maximum — the `transform(max) == MB_MAX` filter of
`__generate_addressing`. -/
def maxFilteredRows (summary : List SummaryRow) (pending : List PendingTag) :
    List (Option SummaryRow × PendingTag) :=
  (mdRows summary pending).filter (fun r =>
    (mdRows summary pending).all
      (fun r₂ => !sameAllocGroup r r₂ || decide (mbMaxOf r₂ ≤ mbMaxOf r)))

/-- The `pd.concat([max_merged, gen_tags_merged])` frame: the filtered
HAS_DATA rows followed by the HAS_DATA == False rows. -/
def genConcat (summary : List SummaryRow) (pending : List PendingTag) :
    List (Option SummaryRow × PendingTag) :=
  maxFilteredRows summary pending ++
    (rightJoinSummary summary pending).filter (fun r => r.1.isNone)

/-- Address stride: the cumcount scaling (`* 2` for FLOAT/INT32/UINT32,
`* TEXT_LEN` for TEXT) and CALC_INC use the same per-type value. -/
def strideOf (mem_type : String) (text_len : Int) : Int :=
  if mem_type == "FLOAT" || mem_type == "INT32" || mem_type == "UINT32" then 2
  else if mem_type == "TEXT" then text_len
  else 1

/-- Cumcount grouping key `(HAS_DATA, MEM_ID, MEM_TYPE)`. -/
def ccKey (r : Option SummaryRow × PendingTag) : Bool × String × String :=
  (r.1.isSome, r.2.mem_id, r.2.mem_type)

/-- A row of the final `gen_tags_merged` frame: the merged columns plus
HAS_DATA, CALC_ADDRESS and CALC_INC. -/
structure GenRow where
  summary : Option SummaryRow
  tag : PendingTag
  has_data : Bool
  calc_address : Int
  calc_inc : Int
deriving DecidableEq

/-- CALC_ADDRESS / CALC_INC assignment of `__generate_addressing` for one
row given its cumcount: the scaled index plus `MB_MAX + CALC_INC` when the
row has usage data, else plus the region's START_ADDRESS. -/
def mkGenRow (r : Option SummaryRow × PendingTag) (cc : Nat) : GenRow :=
  let inc := strideOf r.2.mem_type r.2.text_len
  { summary := r.1
    tag := r.2
    has_data := r.1.isSome
    calc_address :=
      (cc : Int) * inc +
        (match r.1 with
         | some s => s.mb_max + inc
         | none => r.2.start_address)
    calc_inc := inc }

/-- TwinsoftProcessor.__generate_addressing, from the right join down to
the finished CALC_ADDRESS column (the subsequent validation and XML
encoding are separate steps of the pipeline). -/
def generateAddressing (summary : List SummaryRow) (pending : List PendingTag) :
    List GenRow :=
  (withPrevCount ccKey (genConcat summary pending)).map (fun rc => mkGenRow rc.1 rc.2)

theorem withPrevCountAux_prefix_irrelevant {α β : Type} [DecidableEq β] (key : α → β) :
    ∀ (rows prev₀ prev₁ : List α),
      (∀ p ∈ prev₀, ∀ b ∈ rows, key p ≠ key b) →
      withPrevCountAux key (prev₀ ++ prev₁) rows = withPrevCountAux key prev₁ rows := by
  intro rows
  induction rows with
  | nil => intro _ _ _; rfl
  | cons r rest ih =>
    intro prev₀ prev₁ hdis
    simp only [withPrevCountAux]
    have hfil : prev₀.filter (fun p => decide (key p = key r)) = [] := by
      rw [List.filter_eq_nil_iff]
      intro p hp
      simp only [decide_eq_true_eq]
      exact hdis p hp r (List.mem_cons_self r rest)
    rw [List.filter_append, hfil, List.nil_append, List.append_assoc,
      ih prev₀ (prev₁ ++ [r])
        (fun p hp b hb => hdis p hp b (List.mem_cons_of_mem r hb))]

theorem withPrevCountAux_filter_skip {α β : Type} [DecidableEq β] (key : α → β)
    (pb : α → Bool) :
    ∀ (A prev B : List α), (∀ a ∈ A, pb a = false) →
      (withPrevCountAux key prev (A ++ B)).filter (fun rc => pb rc.1) =
        (withPrevCountAux key (prev ++ A) B).filter (fun rc => pb rc.1) := by
  intro A
  induction A with
  | nil => intro prev B _; simp
  | cons a A' ih =>
    intro prev B hA
    simp only [List.cons_append, withPrevCountAux, List.filter_cons, List.append_eq]
    have hpa : pb a = false := hA a (List.mem_cons_self a A')
    simp only [hpa, Bool.false_eq_true, if_false]
    rw [ih (prev ++ [a]) B (fun x hx => hA x (List.mem_cons_of_mem a hx)),
      List.append_assoc]
    rfl

theorem withPrevCountAux_filter_true {α β : Type} [DecidableEq β] (key : α → β)
    (pb : α → Bool) :
    ∀ (B prev : List α), (∀ b ∈ B, pb b = true) →
      (withPrevCountAux key prev B).filter (fun rc => pb rc.1) =
        withPrevCountAux key prev B := by
  intro B
  induction B with
  | nil => intro _ _; rfl
  | cons b B' ih =>
    intro prev hB
    simp only [withPrevCountAux, List.filter_cons]
    have hpb : pb b = true := hB b (List.mem_cons_self b B')
    simp only [hpb, if_true]
    rw [ih (prev ++ [b]) (fun x hx => hB x (List.mem_cons_of_mem b hx))]

theorem withPrevCountAux_map {α α' β : Type} [DecidableEq β] (key : α' → β)
    (f : α → α') :
    ∀ (l prev : List α),
      withPrevCountAux key (prev.map f) (l.map f) =
        (withPrevCountAux (fun x => key (f x)) prev l).map (fun rc => (f rc.1, rc.2)) := by
  intro l
  induction l with
  | nil => intro _; rfl
  | cons r rest ih =>
    intro prev
    simp only [List.map_cons, withPrevCountAux]
    have h1 : (prev.map f).filter (fun p => decide (key p = key (f r))) =
        (prev.filter (fun p => decide (key (f p) = key (f r)))).map f := by
      rw [List.filter_map]
      rfl
    have h2 : prev.map f ++ [f r] = (prev ++ [r]).map f := by simp
    rw [h1, List.length_map, h2, ih (prev ++ [r])]

theorem fst_mem_of_mem_withPrevCountAux {α β : Type} [DecidableEq β] (key : α → β) :
    ∀ (l prev : List α) (x : α) (n : Nat),
      (x, n) ∈ withPrevCountAux key prev l → x ∈ l := by
  intro l
  induction l with
  | nil => intro _ _ _ h; cases h
  | cons r rest ih =>
    intro prev x n h
    rcases List.mem_cons.mp h with h1 | h1
    · have : x = r := congrArg Prod.fst h1
      exact this ▸ List.mem_cons_self r rest
    · exact List.mem_cons_of_mem r (ih (prev ++ [r]) x n h1)

theorem rightJoin_filter_isNone (summary : List SummaryRow) :
    ∀ pending : List PendingTag,
      (rightJoinSummary summary pending).filter (fun r => r.1.isNone) =
        (pending.filter
            (fun t => (summary.filter (fun s => matchesKey s t)).isEmpty)).map
          (fun t => ((none : Option SummaryRow), t)) := by
  intro pending
  induction pending with
  | nil => rfl
  | cons t rest ih =>
    simp only [rightJoinSummary, List.flatMap_cons, List.filter_append,
      List.filter_cons] at *
    cases h : summary.filter (fun s => matchesKey s t) with
    | nil =>
      simp only [h, List.isEmpty_nil, if_true, List.map_cons]
      rw [← ih]
      rfl
    | cons m ms =>
      simp only [h, List.isEmpty_cons, Bool.false_eq_true, if_false]
      rw [← ih]
      have : ((m :: ms).map (fun s => ((some s : Option SummaryRow), t))).filter
          (fun r => r.1.isNone) = [] := by
        rw [List.filter_eq_nil_iff]
        intro a ha
        obtain ⟨s, _, heq⟩ := List.mem_map.mp ha
        rw [← heq]
        simp
      rw [this, List.nil_append]

theorem mem_rightJoin_pending (summary : List SummaryRow) (pending : List PendingTag)
    (o : Option SummaryRow) (t : PendingTag)
    (h : (o, t) ∈ rightJoinSummary summary pending) : t ∈ pending := by
  obtain ⟨t', ht', hmem⟩ := List.mem_flatMap.mp h
  have : t = t' := by
    revert hmem
    cases hf : summary.filter (fun s => matchesKey s t') with
    | nil =>
      intro hmem
      rcases List.mem_singleton.mp hmem with h1
      exact (congrArg Prod.snd h1)
    | cons m ms =>
      intro hmem
      obtain ⟨s, _, heq⟩ := List.mem_map.mp hmem
      exact (congrArg Prod.snd heq).symm
  exact this ▸ ht'

theorem some_mem_rightJoin (summary : List SummaryRow) (pending : List PendingTag)
    (m : SummaryRow) (t : PendingTag) (ht : t ∈ pending) (hm : m ∈ summary)
    (hk : matchesKey m t = true) :
    ((some m : Option SummaryRow), t) ∈ rightJoinSummary summary pending := by
  refine List.mem_flatMap.mpr ⟨t, ht, ?_⟩
  have hmf : m ∈ summary.filter (fun s => matchesKey s t) :=
    List.mem_filter.mpr ⟨hm, hk⟩
  cases hf : summary.filter (fun s => matchesKey s t) with
  | nil => rw [hf] at hmf; cases hmf
  | cons m' ms =>
    rw [hf] at hmf
    exact List.mem_map.mpr ⟨m, hmf, rfl⟩

theorem maxFilteredRows_isSome (summary : List SummaryRow) (pending : List PendingTag)
    (r : Option SummaryRow × PendingTag) (h : r ∈ maxFilteredRows summary pending) :
    r.1.isSome = true := by
  unfold maxFilteredRows at h
  exact (List.mem_filter.mp (List.mem_filter.mp h).1).2

/-- C1: every pending intent whose (region, format, signed) key has no
usage-summary entry is allocated `calc_address = region.start_address +
index * stride`, where `index` is its zero-based position (in input
order) within its `(has_data = false, MEM_ID, MEM_TYPE)` group and the
stride is the per-type value of `strideOf`; in particular three pending
UINT16 intents into an untouched region starting at 100 receive
100, 101, 102 and three FLOAT intents into a region starting at 200
receive 200, 202, 204. -/
theorem fresh_region_allocation :
    (∀ (summary : List SummaryRow) (pending : List PendingTag),
      (generateAddressing summary pending).filter (fun g => !g.has_data) =
        (withPrevCount
            (fun t : PendingTag => ((false : Bool), t.mem_id, t.mem_type))
            (pending.filter
              (fun t => (summary.filter (fun s => matchesKey s t)).isEmpty))).map
          (fun tc =>
            { summary := none
              tag := tc.1
              has_data := false
              calc_address :=
                tc.1.start_address + (tc.2 : Int) * strideOf tc.1.mem_type tc.1.text_len
              calc_inc := strideOf tc.1.mem_type tc.1.text_len })) ∧
    ((generateAddressing []
        [⟨"U1", "d", 0, "G", "R", "16BITS", false, "UINT16", 100, 50, 0⟩,
         ⟨"U2", "d", 0, "G", "R", "16BITS", false, "UINT16", 100, 50, 0⟩,
         ⟨"U3", "d", 0, "G", "R", "16BITS", false, "UINT16", 100, 50, 0⟩]).map
      (fun g => g.calc_address) = [100, 101, 102]) ∧
    ((generateAddressing []
        [⟨"F1", "d", 0, "G", "R2", "FLOAT", false, "FLOAT", 200, 50, 0⟩,
         ⟨"F2", "d", 0, "G", "R2", "FLOAT", false, "FLOAT", 200, 50, 0⟩,
         ⟨"F3", "d", 0, "G", "R2", "FLOAT", false, "FLOAT", 200, 50, 0⟩]).map
      (fun g => g.calc_address) = [200, 202, 204]) := by
  refine ⟨?_, by decide, by decide⟩
  intro summary pending
  have hMF : ∀ a ∈ maxFilteredRows summary pending, a.1.isNone = false := by
    intro a ha
    have hs := maxFilteredRows_isSome summary pending a ha
    rcases a with ⟨o, t⟩
    cases o
    · simp at hs
    · rfl
  have hND : ∀ b ∈ (rightJoinSummary summary pending).filter (fun r => r.1.isNone),
      b.1.isNone = true := fun b hb => (List.mem_filter.mp hb).2
  have hdis : ∀ p ∈ maxFilteredRows summary pending,
      ∀ b ∈ (rightJoinSummary summary pending).filter (fun r => r.1.isNone),
        ccKey p ≠ ccKey b := by
    intro p hp b hb heq
    have h1 := hMF p hp
    have h2 := hND b hb
    have h3 : p.1.isSome = b.1.isSome := congrArg Prod.fst heq
    rcases p with ⟨po, pt⟩
    rcases b with ⟨bo, bt⟩
    cases po <;> cases bo <;> simp_all
  have e1 : (generateAddressing summary pending).filter (fun g => !g.has_data) =
      ((withPrevCount ccKey (genConcat summary pending)).filter
        (fun rc => rc.1.1.isNone)).map (fun rc => mkGenRow rc.1 rc.2) := by
    unfold generateAddressing
    rw [List.filter_map]
    congr 1
    apply List.filter_congr
    intro rc _
    rcases rc with ⟨⟨o, t⟩, n⟩
    cases o <;> rfl
  have e2 : (withPrevCount ccKey (genConcat summary pending)).filter
        (fun rc => rc.1.1.isNone) =
      withPrevCount ccKey
        ((rightJoinSummary summary pending).filter (fun r => r.1.isNone)) := by
    unfold genConcat withPrevCount
    have s1 := withPrevCountAux_filter_skip ccKey
      (fun r : Option SummaryRow × PendingTag => r.1.isNone)
      (maxFilteredRows summary pending) []
      ((rightJoinSummary summary pending).filter (fun r => r.1.isNone)) hMF
    have s2 := withPrevCountAux_prefix_irrelevant ccKey
      ((rightJoinSummary summary pending).filter (fun r => r.1.isNone))
      (maxFilteredRows summary pending) [] hdis
    have s3 := withPrevCountAux_filter_true ccKey
      (fun r : Option SummaryRow × PendingTag => r.1.isNone)
      ((rightJoinSummary summary pending).filter (fun r => r.1.isNone)) [] hND
    rw [List.append_nil] at s2
    simp only [List.nil_append] at s1
    rw [s1, s2, s3]
  rw [e1, e2, rightJoin_filter_isNone]
  have e4 := withPrevCountAux_map (α := PendingTag) ccKey
    (fun t => ((none : Option SummaryRow), t))
    (pending.filter (fun t => (summary.filter (fun s => matchesKey s t)).isEmpty)) []
  simp only [List.map_nil] at e4
  unfold withPrevCount
  rw [e4, List.map_map]
  have e5 : (fun x : PendingTag => ccKey ((none : Option SummaryRow), x)) =
      (fun t : PendingTag => ((false : Bool), t.mem_id, t.mem_type)) := rfl
  rw [e5]
  apply List.map_congr_left
  intro tc _
  show mkGenRow ((none : Option SummaryRow), tc.1) tc.2 = _
  unfold mkGenRow
  simp [GenRow.mk.injEq, Int.add_comm]

/-- C2: every allocation row that carries usage data keeps a summary row
whose MB_MAX dominates the MB_MAX of every summary row matching the
intent's (MEM_ID, Format, Signed) key — allocation is based on the
maximum `max_address_used` across all matching rows; concretely, with
two groups mapped to region R at maxima 100 and 150, the single pending
UINT16 intent is allocated 151 (from 150), not 101. -/
theorem allocation_uses_max_usage :
    (∀ (summary : List SummaryRow) (pending : List PendingTag) (g : GenRow),
      g ∈ generateAddressing summary pending → g.has_data = true →
      ∀ m ∈ summary, matchesKey m g.tag = true →
        ∃ s₀ : SummaryRow, g.summary = some s₀ ∧ m.mb_max ≤ s₀.mb_max) ∧
    ((generateAddressing
        [⟨"GRP_A", "16BITS", false, 100, 100, "GRP_A", "R"⟩,
         ⟨"GRP_B", "16BITS", false, 120, 150, "GRP_B", "R"⟩]
        [⟨"T1", "d", 0, "GRP_A", "R", "16BITS", false, "UINT16", 1400, 100, 0⟩]).map
      (fun g => g.calc_address) = [151]) := by
  refine ⟨?_, by decide⟩
  intro summary pending g hg hd m hm hk
  unfold generateAddressing at hg
  obtain ⟨rc, hrc, hgeq⟩ := List.mem_map.mp hg
  obtain ⟨r, n⟩ := rc
  have hrmem : r ∈ genConcat summary pending :=
    fst_mem_of_mem_withPrevCountAux ccKey _ [] r n hrc
  have hgs : g.summary = r.1 := by rw [← hgeq]; rfl
  have hgt : g.tag = r.2 := by rw [← hgeq]; rfl
  have hgd : r.1.isSome = true := by
    rw [← hgeq] at hd
    exact hd
  rcases List.mem_append.mp hrmem with hmf | hnd
  · unfold maxFilteredRows at hmf
    obtain ⟨hmd, hall⟩ := List.mem_filter.mp hmf
    have hr2 : r.2 ∈ pending := by
      apply mem_rightJoin_pending summary pending r.1 r.2
      exact (List.mem_filter.mp hmd).1
    cases hs₀ : r.1 with
    | none => rw [hs₀] at hgd; simp at hgd
    | some s₀ =>
      refine ⟨s₀, by rw [hgs, hs₀], ?_⟩
      have hmm : ((some m : Option SummaryRow), r.2) ∈ mdRows summary pending :=
        List.mem_filter.mpr
          ⟨some_mem_rightJoin summary pending m r.2 hr2 hm (hgt ▸ hk), rfl⟩
      have hall' := List.all_eq_true.mp hall ((some m : Option SummaryRow), r.2) hmm
      have hsg : sameAllocGroup r ((some m : Option SummaryRow), r.2) = true := by
        unfold sameAllocGroup
        simp
      rw [hsg] at hall'
      simp only [Bool.not_true, Bool.false_or, decide_eq_true_eq] at hall'
      have hmb : mbMaxOf r = s₀.mb_max := by
        unfold mbMaxOf
        rw [hs₀]
      rw [hmb] at hall'
      exact hall'
  · have hnone : r.1.isNone = true := (List.mem_filter.mp hnd).2
    cases h : r.1 with
    | none => rw [h] at hgd; simp at hgd
    | some s => rw [h] at hnone; simp at hnone

/-- Witness for C2 at the concrete two-summary-rows example: the row kept
for the single intent carries the 150 maximum, dominating the sibling
group's 100. -/
theorem allocation_uses_max_usage_witness :
    ∃ s₀ : SummaryRow,
      (⟨some ⟨"GRP_B", "16BITS", false, 120, 150, "GRP_B", "R"⟩,
        ⟨"T1", "d", 0, "GRP_A", "R", "16BITS", false, "UINT16", 1400, 100, 0⟩,
        true, 151, 1⟩ : GenRow).summary = some s₀ ∧
      (⟨"GRP_A", "16BITS", false, 100, 100, "GRP_A", "R"⟩ : SummaryRow).mb_max
        ≤ s₀.mb_max :=
  allocation_uses_max_usage.1
    [⟨"GRP_A", "16BITS", false, 100, 100, "GRP_A", "R"⟩,
     ⟨"GRP_B", "16BITS", false, 120, 150, "GRP_B", "R"⟩]
    [⟨"T1", "d", 0, "GRP_A", "R", "16BITS", false, "UINT16", 1400, 100, 0⟩]
    ⟨some ⟨"GRP_B", "16BITS", false, 120, 150, "GRP_B", "R"⟩,
      ⟨"T1", "d", 0, "GRP_A", "R", "16BITS", false, "UINT16", 1400, 100, 0⟩,
      true, 151, 1⟩
    (by decide) (by decide)
    ⟨"GRP_A", "16BITS", false, 100, 100, "GRP_A", "R"⟩ (by decide) (by decide)

/-- C10: with two usage-summary rows for the same (region, format,
signed) key carrying the same maximal MB_MAX (two groups mapped to one
region with equal existing maxima), the right join keeps both rows, so
a single pending intent yields two allocation rows — the output is not
one result per pending intent. -/
theorem right_join_duplicate_results :
    (generateAddressing
        [⟨"GRP_A", "16BITS", false, 100, 150, "GRP_A", "R"⟩,
         ⟨"GRP_B", "16BITS", false, 120, 150, "GRP_B", "R"⟩]
        [⟨"T1", "d", 0, "GRP_A", "R", "16BITS", false, "UINT16", 1400, 100, 0⟩]).map
      (fun g => (g.tag.tag, g.calc_address)) = [("T1", 151), ("T1", 152)] := by
  decide

/-- Helper for the regex `.+__.+` used by `__validate_gen_df`: true when
the remaining characters contain `__` followed by at least one more
character. -/
def duThenTail : List Char → Bool
  | '_' :: '_' :: _ :: _ => true
  | _ :: rest => duThenTail rest
  | [] => false

/-- `TAG.str.contains('.+__.+')`: the name has two consecutive
underscores with at least one character before and after them. -/
def hasMidDU (s : String) : Bool :=
  match s.data with
  | [] => false
  | _ :: rest => duThenTail rest

/-- Splitting the group path on backslash, `group_entry.split("\\", -1)`
of Python, implemented structurally on the character list (empty
segments are preserved, as in `str.split`). -/
def splitSegsAux (cur : List Char) : List Char → List (List Char)
  | [] => [cur.reverse]
  | c :: rest =>
      if c = '\\' then cur.reverse :: splitSegsAux [] rest
      else splitSegsAux (c :: cur) rest

/-- TwinsoftProcessor.__group_too_long_count: number of `\`-delimited
segments of the group path longer than TW_MAX_GROUP_NAME_LEN. -/
def group_too_long_count (g : String) : Nat :=
  ((splitSegsAux [] g.data).filter
    (fun e => decide (e.length > TW_MAX_GROUP_NAME_LEN))).length

/-- First-occurrence-preserving deduplication, as pandas `unique()`. -/
def dedupFirstAux (seen : List String) : List String → List String
  | [] => []
  | x :: rest =>
      if seen.contains x then dedupFirstAux seen rest
      else x :: dedupFirstAux (seen ++ [x]) rest

/-- Entry point of `dedupFirstAux`. -/
def dedupFirst (l : List String) : List String := dedupFirstAux [] l

/-- Offending rows of check 1 (double underscores in TAG). -/
def offDoubleUnderscore (rows : List ValRow) : List ValRow :=
  rows.filter (fun r => hasMidDU r.tag)

/-- Offending rows of check 2 (TAG longer than 15). -/
def offNameTooLong (rows : List ValRow) : List ValRow :=
  rows.filter (fun r => decide (r.tag.length > TW_MAX_TAG_LEN))

/-- Offending rows of check 3 (DESCRIPTION longer than 50). -/
def offDescTooLong (rows : List ValRow) : List ValRow :=
  rows.filter (fun r => decide (r.description.length > TW_TAG_MAX_DESC_LEN))

/-- Offending rows of check 4 (a TS_GROUP segment longer than 15). -/
def offGroupTooLong (rows : List ValRow) : List ValRow :=
  rows.filter (fun r => group_too_long_count r.ts_group != 0)

/-- Join key of the left merge in `__validate_gen_df_addresses`:
`(MEM_ID, TS_FORMAT, TS_SIGNED)`. -/
def regionKeyMatch (g : MemRegion) (r : ValRow) : Bool :=
  g.mem_id == r.mem_id && g.ts_format == r.ts_format && g.ts_signed == r.ts_signed

/-- The merged frame of `__validate_gen_df_addresses` after dropping rows
whose own MEM_TYPE (`MEM_TYPE_x`) is NaN: each row paired with every
matching memory-map row, or with `none` when the key is absent. -/
def addrMerged (regions : List MemRegion) (rows : List ValRow) :
    List (ValRow × Option MemRegion) :=
  (rows.flatMap (fun r =>
    match regions.filter (fun g => regionKeyMatch g r) with
    | [] => [(r, (none : Option MemRegion))]
    | gs => gs.map (fun g => (r, some g)))).filter (fun p => p.1.mem_type.isSome)

/-- MAX_ADDRESS column: computed from the region's bounds using the ROW's
own MEM_TYPE (`MEM_TYPE_x`) to pick the 2-unit stride. -/
def rowMaxAddress (r : ValRow) (g : MemRegion) : Int :=
  if r.mem_type == some "FLOAT" || r.mem_type == some "INT32" ||
      r.mem_type == some "UINT32" then
    g.start_address + g.length * 2 - 2
  else g.start_address + g.length - 1

/-- Rows of the merged frame whose CALC_ADDRESS falls outside
[START_ADDRESS, MAX_ADDRESS]; a row with no matching region (NaN bounds)
never compares true. -/
def addrOffenders (regions : List MemRegion) (rows : List ValRow) :
    List (ValRow × Option MemRegion) :=
  (addrMerged regions rows).filter (fun p =>
    match p.2 with
    | some g => decide (p.1.calc_address > rowMaxAddress p.1 g) ||
        decide (p.1.calc_address < g.start_address)
    | none => false)

/-- TwinsoftProcessor.__validate_gen_df_addresses: raise
TE_MEM_ID_NOT_FOUND when (unless blind validation) no row joins to a
memory-map entry, then TE_CALC_ADDRESS_NOT_IN_MEMORY_MAP for rows out of
bounds. -/
def validate_gen_df_addresses (regions : List MemRegion) (rows : List ValRow)
    (blind : Bool) : Except TwErr Unit :=
  if !blind && (addrMerged regions rows).isEmpty then
    .error (.memIdNotFound (dedupFirst (rows.map (fun r => r.mem_id))))
  else if !(addrOffenders regions rows).isEmpty then
    .error (.calcAddressOutOfMap (addrOffenders regions rows))
  else .ok ()

/-- Rows marked by pandas `duplicated(subset=[CALC_ADDRESS])`: every row
with an earlier row sharing its CALC_ADDRESS. -/
def duplicatedBy (rows : List ValRow) : List ValRow :=
  ((withPrevCount (fun r : ValRow => r.calc_address) rows).filter
    (fun rc => rc.2 != 0)).map (fun rc => rc.1)

/-- Offending rows of check 6 (duplicate CALC_ADDRESS among BOOL rows). -/
def offDupBool (rows : List ValRow) : List ValRow :=
  duplicatedBy (rows.filter (fun r => r.mem_type == some "BOOL"))

/-- Offending rows of check 7 (duplicate CALC_ADDRESS among non-BOOL
rows; a NaN MEM_TYPE also counts as non-BOOL, as in pandas). -/
def offDupAnalog (rows : List ValRow) : List ValRow :=
  duplicatedBy (rows.filter (fun r => !(r.mem_type == some "BOOL")))

/-- TwinsoftProcessor.__validate_gen_df: the check sequence run on a
fully-addressed allocation result set, raising on the first violated
check with the full offending payload of that check. -/
def validate_gen_df (regions : List MemRegion) (rows : List ValRow)
    (blind : Bool) : Except TwErr Unit :=
  if !(offDoubleUnderscore rows).isEmpty then
    .error (.doubleUnderscores ((offDoubleUnderscore rows).map (fun r => r.tag)))
  else if !(offNameTooLong rows).isEmpty then
    .error (.tagNameTooLong ((offNameTooLong rows).map (fun r => r.tag)))
  else if !(offDescTooLong rows).isEmpty then
    .error (.tagDescTooLong ((offDescTooLong rows).map (fun r => r.tag)))
  else if !(offGroupTooLong rows).isEmpty then
    .error (.mapGroupTooLong (dedupFirst ((offGroupTooLong rows).map (fun r => r.ts_group))))
  else
    match validate_gen_df_addresses regions rows blind with
    | .error e => .error e
    | .ok _ =>
      if !(offDupBool rows).isEmpty then
        .error (.duplicateBoolAddr (offDupBool rows))
      else if !(offDupAnalog rows).isEmpty then
        .error (.duplicateAnalogAddr (offDupAnalog rows))
      else .ok ()

/-- Modelled from the claim's wording: the Validator as an ordered list of
independent checks, each either passing (`none`) or producing its error
with the complete offending payload of that one check; the outcome is the
first failing check's error, or approval when none fails.  The list
follows the claimed order 1-7, with the memory-map-join check the source
additionally performs inserted before the bounds comparison. -/
def checkResults (regions : List MemRegion) (rows : List ValRow) (blind : Bool) :
    List (Option TwErr) :=
  [if (offDoubleUnderscore rows).isEmpty then none
     else some (.doubleUnderscores ((offDoubleUnderscore rows).map (fun r => r.tag))),
   if (offNameTooLong rows).isEmpty then none
     else some (.tagNameTooLong ((offNameTooLong rows).map (fun r => r.tag))),
   if (offDescTooLong rows).isEmpty then none
     else some (.tagDescTooLong ((offDescTooLong rows).map (fun r => r.tag))),
   if (offGroupTooLong rows).isEmpty then none
     else some (.mapGroupTooLong (dedupFirst ((offGroupTooLong rows).map (fun r => r.ts_group)))),
   if blind || !(addrMerged regions rows).isEmpty then none
     else some (.memIdNotFound (dedupFirst (rows.map (fun r => r.mem_id)))),
   if (addrOffenders regions rows).isEmpty then none
     else some (.calcAddressOutOfMap (addrOffenders regions rows)),
   if (offDupBool rows).isEmpty then none
     else some (.duplicateBoolAddr (offDupBool rows)),
   if (offDupAnalog rows).isEmpty then none
     else some (.duplicateAnalogAddr (offDupAnalog rows))]

/-- Fail on the first check of `checkResults` that produced an error. -/
def validateSpecOrdered (regions : List MemRegion) (rows : List ValRow)
    (blind : Bool) : Except TwErr Unit :=
  match (checkResults regions rows blind).filterMap id with
  | [] => .ok ()
  | e :: _ => .error e

/-- The validation step of TwinsoftProcessor.clone: the validator is
invoked only when `ignore_map_errors` is falsy. -/
def clone_apply_validator (regions : List MemRegion) (rows : List ValRow)
    (blind ignore_map_errors : Bool) : Except TwErr Unit :=
  if !ignore_map_errors then validate_gen_df regions rows blind else .ok ()

/-- C3 counterexample: a row whose rewritten region key is absent from the
memory map (a reachable clone-path input) violates none of the seven
claimed rules — every offender set of checks 1-7 is empty — yet the
Validator raises a MEM_ID-not-found error instead of approving the
set. -/
theorem validator_memid_check_cex :
    validate_gen_df [⟨"R", "UINT16", 0, 50, "16BITS", false⟩]
        [⟨"T1", "d", "G", "RX", "16BITS", false, none, 10, 0⟩] false
      = .error (.memIdNotFound ["RX"]) ∧
    offDoubleUnderscore [⟨"T1", "d", "G", "RX", "16BITS", false, none, 10, 0⟩] = [] ∧
    offNameTooLong [⟨"T1", "d", "G", "RX", "16BITS", false, none, 10, 0⟩] = [] ∧
    offDescTooLong [⟨"T1", "d", "G", "RX", "16BITS", false, none, 10, 0⟩] = [] ∧
    offGroupTooLong [⟨"T1", "d", "G", "RX", "16BITS", false, none, 10, 0⟩] = [] ∧
    addrOffenders [⟨"R", "UINT16", 0, 50, "16BITS", false⟩]
        [⟨"T1", "d", "G", "RX", "16BITS", false, none, 10, 0⟩] = [] ∧
    offDupBool [⟨"T1", "d", "G", "RX", "16BITS", false, none, 10, 0⟩] = [] ∧
    offDupAnalog [⟨"T1", "d", "G", "RX", "16BITS", false, none, 10, 0⟩] = [] := by
  decide

/-- C3 as amended: the Validator equals the ordered fail-fast pipeline of
`checkResults` — checks 1-7 in the claimed order with each failure
carrying that check's complete offender payload — provided the
additional memory-map-join check (raising MEM_ID-not-found when blind
validation is off and no row joins to a memory-map entry) is inserted
between the group-segment check and the bounds check. -/
theorem validator_first_violation_order (regions : List MemRegion)
    (rows : List ValRow) (blind : Bool) :
    validate_gen_df regions rows blind = validateSpecOrdered regions rows blind := by
  unfold validate_gen_df validateSpecOrdered checkResults validate_gen_df_addresses
  cases h1 : offDoubleUnderscore rows with
  | cons a l => simp [h1]
  | nil =>
  cases h2 : offNameTooLong rows with
  | cons a l => simp [h1, h2]
  | nil =>
  cases h3 : offDescTooLong rows with
  | cons a l => simp [h1, h2, h3]
  | nil =>
  cases h4 : offGroupTooLong rows with
  | cons a l => simp [h1, h2, h3, h4]
  | nil =>
  cases hb : blind with
  | false =>
    cases h5 : addrMerged regions rows with
    | nil => simp [h1, h2, h3, h4, h5]
    | cons a l =>
    cases h6 : addrOffenders regions rows with
    | cons a l => simp [h1, h2, h3, h4, h5, h6]
    | nil =>
    cases h7 : offDupBool rows with
    | cons a l => simp [h1, h2, h3, h4, h5, h6, h7]
    | nil =>
    cases h8 : offDupAnalog rows with
    | cons a l => simp [h1, h2, h3, h4, h5, h6, h7, h8]
    | nil => simp [h1, h2, h3, h4, h5, h6, h7, h8]
  | true =>
    cases h6 : addrOffenders regions rows with
    | cons a l => simp [h1, h2, h3, h4, h6]
    | nil =>
    cases h7 : offDupBool rows with
    | cons a l => simp [h1, h2, h3, h4, h6, h7]
    | nil =>
    cases h8 : offDupAnalog rows with
    | cons a l => simp [h1, h2, h3, h4, h6, h7, h8]
    | nil => simp [h1, h2, h3, h4, h6, h7, h8]

/-- C4 counterexample: with blind validation active, a row whose region is
present in the memory map but whose CALC_ADDRESS lies outside it still
raises the address-out-of-region error — blind validation does not
bypass the bounds check. -/
theorem blind_validation_bounds_cex :
    validate_gen_df [⟨"R", "UINT16", 0, 50, "16BITS", false⟩]
        [⟨"T1", "d", "G", "R", "16BITS", false, some "UINT16", 100, 0⟩] true
      = .error (.calcAddressOutOfMap
          [(⟨"T1", "d", "G", "R", "16BITS", false, some "UINT16", 100, 0⟩,
            some ⟨"R", "UINT16", 0, 50, "16BITS", false⟩)]) := by
  decide

/-- C4 as amended: blind validation bypasses only the check that at least
one row joins to a memory-map entry (MEM_ID-not-found); the bounds check
still runs, its outcome determined solely by the bounds offenders, and
every bounds offender is a row that did join to some region (rows whose
key is absent from the map are excluded from the comparison). -/
theorem blind_validation_amended (regions : List MemRegion) (rows : List ValRow) :
    (validate_gen_df_addresses regions rows true =
      if (addrOffenders regions rows).isEmpty then .ok ()
      else .error (.calcAddressOutOfMap (addrOffenders regions rows))) ∧
    (addrOffenders regions rows).all (fun p => p.2.isSome) = true := by
  constructor
  · unfold validate_gen_df_addresses
    cases h : (addrOffenders regions rows).isEmpty <;> simp [h]
  · rw [List.all_eq_true]
    intro p hp
    unfold addrOffenders at hp
    have hc := (List.mem_filter.mp hp).2
    rcases p with ⟨r, og⟩
    cases og
    · simp at hc
    · rfl

/-- Witness for C4's amended statement at a concrete out-of-bounds row
under blind validation. -/
theorem blind_validation_amended_witness :
    validate_gen_df_addresses [⟨"R", "UINT16", 0, 50, "16BITS", false⟩]
        [⟨"T1", "d", "G", "R", "16BITS", false, some "UINT16", 100, 0⟩] true =
      if (addrOffenders [⟨"R", "UINT16", 0, 50, "16BITS", false⟩]
          [⟨"T1", "d", "G", "R", "16BITS", false, some "UINT16", 100, 0⟩]).isEmpty
      then .ok ()
      else .error (.calcAddressOutOfMap
          (addrOffenders [⟨"R", "UINT16", 0, 50, "16BITS", false⟩]
            [⟨"T1", "d", "G", "R", "16BITS", false, some "UINT16", 100, 0⟩])) :=
  (blind_validation_amended [⟨"R", "UINT16", 0, 50, "16BITS", false⟩]
    [⟨"T1", "d", "G", "R", "16BITS", false, some "UINT16", 100, 0⟩]).1

/-- C5 counterexample: on the clone path with `ignore_map_errors` set, the
validator is skipped entirely — a cloned set with a double-underscore
name is approved, while the validator run on the generate path rejects
the same set; `ignore_map_errors` therefore does not affect only the
checks it affects on the generate path. -/
theorem clone_validator_ignore_cex :
    clone_apply_validator [⟨"R", "UINT16", 0, 50, "16BITS", false⟩]
        [⟨"A__B", "d", "G", "R", "16BITS", false, some "UINT16", 10, 0⟩] false true
      = .ok () ∧
    validate_gen_df [⟨"R", "UINT16", 0, 50, "16BITS", false⟩]
        [⟨"A__B", "d", "G", "R", "16BITS", false, some "UINT16", 10, 0⟩] false
      = .error (.doubleUnderscores ["A__B"]) := by
  decide

/-- C5 as amended: when `ignore_map_errors` is not set, the clone path
applies exactly the same validator as the generate path with the same
`blind_validation` flag (same checks, same order, same payloads); when
`ignore_map_errors` is set, the clone path skips every validation check
and approves unconditionally. -/
theorem clone_validator_equivalence (regions : List MemRegion) (rows : List ValRow)
    (blind : Bool) :
    clone_apply_validator regions rows blind false = validate_gen_df regions rows blind ∧
    clone_apply_validator regions rows blind true = .ok () :=
  ⟨rfl, rfl⟩

/-- View of a generated allocation row as a validator row (after the
`TS_GROUP_y → TS_GROUP` rename; the generate path always carries a
MEM_TYPE). -/
def GenRow.toValRow (g : GenRow) : ValRow :=
  { tag := g.tag.tag
    description := g.tag.description
    ts_group := g.tag.ts_group
    mem_id := g.tag.mem_id
    ts_format := g.tag.ts_format
    ts_signed := g.tag.ts_signed
    mem_type := some g.tag.mem_type
    calc_address := g.calc_address
    initial_value := g.tag.initial_value }

/-- The generate run from `load_data` onward: the region-overlap check,
then `__generate_addressing` (which validates with default
`blind_validation=False` and only then writes the XML); the `.ok`
payload stands for the rows written to the output file. -/
def generate_pipeline (regions : List MemRegion) (ignore_map_errors : Bool)
    (summary : List SummaryRow) (pending : List PendingTag) :
    Except TwErr (List ValRow) :=
  match load_and_validate_memory_map regions ignore_map_errors with
  | .error e => .error e
  | .ok _ =>
    match validate_gen_df regions
        ((generateAddressing summary pending).map GenRow.toValRow) false with
    | .error e => .error e
    | .ok _ => .ok ((generateAddressing summary pending).map GenRow.toValRow)

/-- Row selection of TwinsoftProcessor.clone: exported tags whose Tag
matches the tag filter and whose Group matches the group filter (both
regex `str.contains` predicates, passed in as functions). -/
def cloneSelect (exportTags : List ExportedTag) (tagM groupM : String → Bool) :
    List ExportedTag :=
  exportTags.filter (fun t => tagM t.tag && groupM t.group)

/-- Column rewriting of TwinsoftProcessor.clone for one selected tag:
`sub1` is `str.replace(replace_pattern, loop_no, n=1)` (applied to Tag,
Comment and MEM_ID), `subAllLoop` is `str.replace(replace_pattern,
loop_no)` applied to TS_GROUP when neither a destination override nor a
group find/replace pair (`gsub`) is given; ModbusAddress is shifted by
the caller's offset and a null InitalValue becomes TW_IGNORE_DATA. -/
def cloneBase (dest : Option String) (offset : Int) (sub1 subAllLoop : String → String)
    (gsub : Option (String → String)) (t : ExportedTag) : ValRow :=
  { tag := sub1 t.tag
    description := sub1 t.comment
    ts_group :=
      match dest with
      | some d => d
      | none =>
        match gsub with
        | none => subAllLoop t.ts_group
        | some gs => gs t.ts_group
    mem_id := sub1 t.mem_id
    ts_format := t.format
    ts_signed := t.signed == "True"
    mem_type := none
    calc_address := t.modbusAddress + offset
    initial_value := t.initalValue.getD TW_IGNORE_DATA }

/-- The cloned frame after the left merge with the memory map on
`(MEM_ID, TS_FORMAT, TS_SIGNED)`: each rewritten row paired with every
matching region's MEM_TYPE, or kept with a NaN MEM_TYPE when the new
key is absent from the map. -/
def cloneRows (regions : List MemRegion) (exportTags : List ExportedTag)
    (tagM groupM : String → Bool) (dest : Option String) (offset : Int)
    (sub1 subAllLoop : String → String) (gsub : Option (String → String)) :
    List ValRow :=
  (cloneSelect exportTags tagM groupM).flatMap (fun t =>
    match regions.filter (fun g =>
        g.mem_id == (cloneBase dest offset sub1 subAllLoop gsub t).mem_id &&
        g.ts_format == (cloneBase dest offset sub1 subAllLoop gsub t).ts_format &&
        g.ts_signed == (cloneBase dest offset sub1 subAllLoop gsub t).ts_signed) with
    | [] => [cloneBase dest offset sub1 subAllLoop gsub t]
    | gs => gs.map (fun g =>
        { cloneBase dest offset sub1 subAllLoop gsub t with mem_type := some g.mem_type }))

/-- TwinsoftProcessor.clone from `load_data` onward: overlap check,
selection and rewriting, the TE_PATTERN_NOT_FOUND raise on an empty
selection, validation unless `ignore_map_errors`, then the XML write
(the `.ok` payload). -/
def clone_pipeline (regions : List MemRegion) (ignore_map_errors : Bool)
    (exportTags : List ExportedTag) (tagM groupM : String → Bool)
    (dest : Option String) (offset : Int) (sub1 subAllLoop : String → String)
    (gsub : Option (String → String)) (blind : Bool) :
    Except TwErr (List ValRow) :=
  match load_and_validate_memory_map regions ignore_map_errors with
  | .error e => .error e
  | .ok _ =>
    if (cloneRows regions exportTags tagM groupM dest offset sub1 subAllLoop gsub).isEmpty then
      .error .patternNotFound
    else
      match clone_apply_validator regions
          (cloneRows regions exportTags tagM groupM dest offset sub1 subAllLoop gsub)
          blind ignore_map_errors with
      | .error e => .error e
      | .ok _ => .ok (cloneRows regions exportTags tagM groupM dest offset sub1 subAllLoop gsub)

/-- Replacement of the first decimal-digit character, the semantics of
`str.replace(\d, repl, n=1)` used in the concrete clone example. -/
def replaceFirstDigit (repl : List Char) : List Char → List Char
  | [] => []
  | c :: rest => if c.isDigit then repl ++ rest else c :: replaceFirstDigit repl rest

/-- String wrapper of `replaceFirstDigit`. -/
def digitTo (repl s : String) : String := ⟨replaceFirstDigit repl.data s.data⟩

/-- Replacement of every decimal-digit character, the semantics of
`str.replace(\d, repl)` with the default n=-1. -/
def replaceAllDigits (repl : List Char) : List Char → List Char
  | [] => []
  | c :: rest =>
      if c.isDigit then repl ++ replaceAllDigits repl rest
      else c :: replaceAllDigits repl rest

/-- String wrapper of `replaceAllDigits`. -/
def digitAllTo (repl s : String) : String := ⟨replaceAllDigits repl.data s.data⟩

/-- C7: a run errors (writes nothing — the `.ok` payload stands for the
written file) whenever a check fails: a region-overlap failure or a
validation failure makes the generate run return exactly that error, and
an `.ok` outcome of either the generate or the clone run certifies that
the overlap check and the validation step both passed — the XML is
written only after validation. -/
theorem no_output_on_validation_failure (regions : List MemRegion)
    (ign : Bool) (summary : List SummaryRow) (pending : List PendingTag)
    (exportTags : List ExportedTag) (tagM groupM : String → Bool)
    (dest : Option String) (offset : Int) (sub1 subAllLoop : String → String)
    (gsub : Option (String → String)) (blind : Bool) (e : TwErr) :
    (load_and_validate_memory_map regions ign = .error e →
      generate_pipeline regions ign summary pending = .error e) ∧
    (load_and_validate_memory_map regions ign = .ok () →
      validate_gen_df regions
          ((generateAddressing summary pending).map GenRow.toValRow) false = .error e →
      generate_pipeline regions ign summary pending = .error e) ∧
    (∀ out, generate_pipeline regions ign summary pending = .ok out →
      load_and_validate_memory_map regions ign = .ok () ∧
      validate_gen_df regions
        ((generateAddressing summary pending).map GenRow.toValRow) false = .ok ()) ∧
    (∀ out, clone_pipeline regions ign exportTags tagM groupM dest offset
        sub1 subAllLoop gsub blind = .ok out →
      load_and_validate_memory_map regions ign = .ok () ∧
      clone_apply_validator regions
        (cloneRows regions exportTags tagM groupM dest offset sub1 subAllLoop gsub)
        blind ign = .ok ()) := by
  refine ⟨?_, ?_, ?_, ?_⟩
  · intro h
    unfold generate_pipeline
    rw [h]
  · intro h1 h2
    unfold generate_pipeline
    rw [h1, h2]
  · intro out h
    unfold generate_pipeline at h
    cases hl : load_and_validate_memory_map regions ign with
    | error e' => rw [hl] at h; simp at h
    | ok u =>
      cases u
      rw [hl] at h
      cases hv : validate_gen_df regions
          ((generateAddressing summary pending).map GenRow.toValRow) false with
      | error e' => rw [hv] at h; simp at h
      | ok u' => cases u'; exact ⟨rfl, rfl⟩
  · intro out h
    unfold clone_pipeline at h
    cases hl : load_and_validate_memory_map regions ign with
    | error e' => rw [hl] at h; simp at h
    | ok u =>
      cases u
      rw [hl] at h
      cases he : (cloneRows regions exportTags tagM groupM dest offset
          sub1 subAllLoop gsub).isEmpty with
      | true => rw [he] at h; simp at h
      | false =>
        rw [he] at h
        simp only [Bool.false_eq_true, if_false] at h
        cases hv : clone_apply_validator regions
            (cloneRows regions exportTags tagM groupM dest offset sub1 subAllLoop gsub)
            blind ign with
        | error e' => rw [hv] at h; simp at h
        | ok u' => cases u'; exact ⟨rfl, rfl⟩

/-- Witness for C7: a generate run whose only pending tag has a 16
character name returns the TagNameTooLong validation error and writes
nothing. -/
theorem no_output_on_validation_failure_witness :
    generate_pipeline [⟨"R", "UINT16", 100, 50, "16BITS", false⟩] false []
        [⟨"ABCDEFGHIJKLMNOP", "d", 0, "G", "R", "16BITS", false, "UINT16", 100, 50, 0⟩]
      = .error (.tagNameTooLong ["ABCDEFGHIJKLMNOP"]) :=
  (no_output_on_validation_failure [⟨"R", "UINT16", 100, 50, "16BITS", false⟩] false []
      [⟨"ABCDEFGHIJKLMNOP", "d", 0, "G", "R", "16BITS", false, "UINT16", 100, 50, 0⟩]
      [] (fun _ => true) (fun _ => true) none 0 (fun s => s) (fun s => s) none false
      (.tagNameTooLong ["ABCDEFGHIJKLMNOP"])).2.1 (by decide) (by decide)

/-- C8: a clone invocation whose filters select nothing returns the
explicit TE_PATTERN_NOT_FOUND error (no silent empty output); every
cloned row comes from a selected exported tag with
`calc_address = ModbusAddress + offset` and its name rewritten by the
first-match substitution; concretely, a source tag at address 1000 in
region CHAMBER_1 cloned with offset 500 and pattern `\d → 2` lands at
1500 with name `LT_201` and group `CHAMBER 2`. -/
theorem clone_selection_and_offset (regions : List MemRegion) (ign : Bool)
    (exportTags : List ExportedTag) (tagM groupM : String → Bool)
    (dest : Option String) (offset : Int) (sub1 subAllLoop : String → String)
    (gsub : Option (String → String)) (blind : Bool) :
    (load_and_validate_memory_map regions ign = .ok () →
      cloneSelect exportTags tagM groupM = [] →
      clone_pipeline regions ign exportTags tagM groupM dest offset sub1 subAllLoop
        gsub blind = .error .patternNotFound) ∧
    (∀ r ∈ cloneRows regions exportTags tagM groupM dest offset sub1 subAllLoop gsub,
      ∃ t, t ∈ exportTags ∧ tagM t.tag = true ∧ groupM t.group = true ∧
        r.calc_address = t.modbusAddress + offset ∧ r.tag = sub1 t.tag) ∧
    (cloneRows [⟨"CHAMBER_2", "UINT16", 1400, 200, "16BITS", false⟩]
        [⟨"LT_101", "CHAMBER 1", "16BITS", "False", 1000, "Level 101", none,
          "CHAMBER 1", "CHAMBER_1"⟩]
        (fun _ => true) (fun _ => true) none 500 (digitTo "2") (digitAllTo "2") none
      = [⟨"LT_201", "Level 201", "CHAMBER 2", "CHAMBER_2", "16BITS", false,
          some "UINT16", 1500, -9999⟩]) := by
  refine ⟨?_, ?_, by decide⟩
  · intro hload hsel
    have hrows : cloneRows regions exportTags tagM groupM dest offset sub1 subAllLoop
        gsub = [] := by
      unfold cloneRows
      rw [hsel]
      rfl
    unfold clone_pipeline
    rw [hload, hrows]
    rfl
  · intro r hr
    unfold cloneRows at hr
    obtain ⟨t, ht, hmem⟩ := List.mem_flatMap.mp hr
    have hsel := List.mem_filter.mp ht
    rw [Bool.and_eq_true] at hsel
    refine ⟨t, hsel.1, hsel.2.1, hsel.2.2, ?_⟩
    revert hmem
    cases hf : regions.filter (fun g =>
        g.mem_id == (cloneBase dest offset sub1 subAllLoop gsub t).mem_id &&
        g.ts_format == (cloneBase dest offset sub1 subAllLoop gsub t).ts_format &&
        g.ts_signed == (cloneBase dest offset sub1 subAllLoop gsub t).ts_signed) with
    | nil =>
      intro hmem
      have := List.mem_singleton.mp hmem
      rw [this]
      exact ⟨rfl, rfl⟩
    | cons g gs =>
      intro hmem
      obtain ⟨g', _, heq⟩ := List.mem_map.mp hmem
      rw [← heq]
      exact ⟨rfl, rfl⟩

/-- Witness for C8: with a tag filter matching nothing, the clone
pipeline returns the explicit empty-selection error. -/
theorem clone_selection_and_offset_witness :
    clone_pipeline [⟨"CHAMBER_2", "UINT16", 1400, 200, "16BITS", false⟩] false
        [⟨"LT_101", "CHAMBER 1", "16BITS", "False", 1000, "Level 101", none,
          "CHAMBER 1", "CHAMBER_1"⟩]
        (fun _ => false) (fun _ => true) none 500 (digitTo "2") (digitAllTo "2")
        none false
      = .error .patternNotFound :=
  (clone_selection_and_offset [⟨"CHAMBER_2", "UINT16", 1400, 200, "16BITS", false⟩]
      false
      [⟨"LT_101", "CHAMBER 1", "16BITS", "False", 1000, "Level 101", none,
        "CHAMBER 1", "CHAMBER_1"⟩]
      (fun _ => false) (fun _ => true) none 500 (digitTo "2") (digitAllTo "2")
      none false).1 (by decide) (by decide)

end TagImporter
